import Mathlib

/-!
Verification of the meowda virtual-environment store against its source.

Paths are modelled as lists of components measured from the filesystem
root; the filesystem is an abstract state recording which paths are
directories, which are files (with contents), and which directories are
unreadable.  Rust's `Path::starts_with` is componentwise prefix,
`Path::ends_with` componentwise suffix.  Environment variables are
carried in an explicit `Env` record; a variable that is unset, or set to
the empty string, is normalised by `envVarPath`.
-/

namespace Meowda

/-- A filesystem path: its list of components from the root
(`/a/b` is `["a", "b"]`, the root itself is `[]`). -/
abbrev FsPath := List String

/-- Abstract filesystem state: which paths are directories, which are
files (with their contents), and which directories exist but cannot be
read (permission denied). -/
structure FS where
  dirs : List FsPath
  files : List (FsPath × String)
  unreadable : List FsPath
deriving DecidableEq

/-- `p` is a directory. -/
def FS.isDir (fs : FS) (p : FsPath) : Bool := fs.dirs.contains p

/-- `p` is a file. -/
def FS.isFile (fs : FS) (p : FsPath) : Bool := fs.files.any (fun e => e.1 = p)

/-- `p.exists()`: some filesystem entry (directory or file) is at `p`. -/
def FS.entryExists (fs : FS) (p : FsPath) : Bool := fs.isDir p || fs.isFile p

/-- `read_dir` succeeds on `p` (the directory is readable). -/
def FS.readable (fs : FS) (p : FsPath) : Bool := !(fs.unreadable.contains p)

/-- The contents of the file at `p`, when there is one. -/
def FS.fileContent (fs : FS) (p : FsPath) : Option String :=
  (fs.files.find? (fun e => e.1 = p)).map (fun e => e.2)

/-- `Path::canonicalize`: succeeds exactly on existing paths (the model
has no symbolic links, so an existing path is its own canonical form). -/
def FS.canonicalize (fs : FS) (p : FsPath) : Option FsPath :=
  if fs.entryExists p then some p else none

/-- An environment-variable value, as `var_os(..).filter(|s| !s.is_empty())`
followed by `std::path::absolute` sees it: `none` when the variable is
unset or empty (paths in the model are already absolute). -/
def envVarPath (v : Option FsPath) : Option FsPath :=
  v.bind (fun p => if p = [] then none else some p)

/-- The ambient process environment: the two override variables,
`VIRTUAL_ENV`, the current working directory, and the platform
user-state base directory (`etcetera`'s data dir), when determinable. -/
structure Env where
  meowdaLocalVenvDir : Option FsPath
  meowdaGlobalVenvDir : Option FsPath
  virtualEnv : Option FsPath
  cwd : FsPath
  dataDir : Option FsPath
deriving DecidableEq

/-- The marker subdirectory `.meowda/venvs` appended at each level of the
upward walk. -/
def markerSubdir : FsPath := [".meowda", "venvs"]

/-- Helper for `upChain`, recursing on the reversed path: dropping the
head of the reversed path is exactly moving to the parent directory. -/
def upChainRev : FsPath → List FsPath
  | [] => [[]]
  | c :: rest => (c :: rest).reverse :: upChainRev rest

/-- The chain of directories visited by the upward walk: the starting
directory, then each parent in turn, ending with the root `[]`. -/
def upChain (p : FsPath) : List FsPath := upChainRev p.reverse

/-- `find_local_venv_dirs`: walk upward from `cwd` to the root; at each
level keep `<level>/.meowda/venvs` when it exists, is a directory and is
readable (unreadable ones are silently skipped).  Nearest level first. -/
def find_local_venv_dirs (fs : FS) (cwd : FsPath) : List FsPath :=
  ((upChain cwd).map (fun d => d ++ markerSubdir)).filter
    (fun m => fs.entryExists m && fs.isDir m && fs.readable m)

inductive VenvScope
  | Local
  | Global
deriving DecidableEq

/-- `user_state_dir`: the platform data dir joined with `meowda`. -/
def user_state_dir (env : Env) : Option FsPath :=
  env.dataDir.map (fun d => d ++ ["meowda"])

/-- All the prefixes of `p`, from the root `[]` up to `p` itself. -/
def pathPrefixes (p : FsPath) : List FsPath :=
  (List.range (p.length + 1)).map (fun k => p.take k)

/-- `std::fs::create_dir_all`: fails when some prefix of `p` is a file;
otherwise marks every missing prefix as a directory. -/
def FS.createDirAll (fs : FS) (p : FsPath) : Option FS :=
  if (pathPrefixes p).any (fun q => fs.isFile q) then none
  else some { fs with
    dirs := fs.dirs ++ (pathPrefixes p).filter (fun q => !(fs.isDir q)) }

structure VenvStore where
  path : FsPath
deriving DecidableEq

namespace VenvStore

/-- `VenvStore::local_path`: the override variable when set and
non-empty; else the first directory found by the upward walk; else the
fallback `<cwd>/.meowda/venvs`. -/
def local_path (env : Env) (fs : FS) : FsPath :=
  match envVarPath env.meowdaLocalVenvDir with
  | some p => p
  | none =>
    match (find_local_venv_dirs fs env.cwd).head? with
    | some first_dir => first_dir
    | none => env.cwd ++ markerSubdir

/-- `VenvStore::global_path`: the override variable when set and
non-empty; else `<user_state_dir>/venvs`; `none` models the ConfigError
when the platform directory cannot be determined. -/
def global_path (env : Env) : Option FsPath :=
  match envVarPath env.meowdaGlobalVenvDir with
  | some p => some p
  | none => (user_state_dir env).map (fun d => d ++ ["venvs"])

/-- `VenvStore::detect_path`. -/
def detect_path (venv_scope : Option VenvScope) (env : Env) (fs : FS) :
    Option FsPath :=
  match venv_scope with
  | some VenvScope.Local => some (local_path env fs)
  | some VenvScope.Global => global_path env
  | none => global_path env

/-- `VenvStore::is_ready`. -/
def is_ready (store : VenvStore) (fs : FS) : Bool :=
  fs.entryExists store.path && fs.isDir store.path &&
    fs.entryExists (store.path ++ [".gitignore"])

/-- `VenvStore::init`: `create_dir_all` on the store path, then create
the `.gitignore` marker with contents `*` only when no entry is already
there (`create_new`; an `AlreadyExists` error is swallowed).  `none`
models the propagated IO error. -/
def init (store : VenvStore) (fs : FS) : Option FS :=
  (fs.createDirAll store.path).map (fun fs1 =>
    if fs1.entryExists (store.path ++ [".gitignore"]) then fs1
    else { fs1 with files := fs1.files ++ [(store.path ++ [".gitignore"], "*")] })

/-- `VenvStore::exists`: with the local override set, only the store's
own path is consulted; for a path ending in `.meowda/venvs` the upward
walk is searched; otherwise (global store) only the store's own path.
In every branch the test is `Path::exists`, i.e. any entry kind. -/
def existsName (store : VenvStore) (env : Env) (fs : FS) (name : String) : Bool :=
  if (envVarPath env.meowdaLocalVenvDir).isSome then
    fs.entryExists (store.path ++ [name])
  else if markerSubdir.isSuffixOf store.path then
    (find_local_venv_dirs fs env.cwd).any (fun dir => fs.entryExists (dir ++ [name]))
  else
    fs.entryExists (store.path ++ [name])

/-- `VenvStore::find_env_path`: same branching as `exists`, returning
the joined path under the first directory that has an entry `name`. -/
def find_env_path (store : VenvStore) (env : Env) (fs : FS) (name : String) :
    Option FsPath :=
  if (envVarPath env.meowdaLocalVenvDir).isSome then
    if fs.entryExists (store.path ++ [name]) then some (store.path ++ [name])
    else none
  else if markerSubdir.isSuffixOf store.path then
    ((find_local_venv_dirs fs env.cwd).find?
        (fun dir => fs.entryExists (dir ++ [name]))).map (fun dir => dir ++ [name])
  else
    if fs.entryExists (store.path ++ [name]) then some (store.path ++ [name])
    else none

/-- `VenvStore::all_paths`. -/
def all_paths (store : VenvStore) (env : Env) (fs : FS) : List FsPath :=
  if (envVarPath env.meowdaLocalVenvDir).isSome then [store.path]
  else if markerSubdir.isSuffixOf store.path then find_local_venv_dirs fs env.cwd
  else [store.path]

/-- `VenvStore::contains`: `path.starts_with(self.path())`. -/
def contains (store : VenvStore) (p : FsPath) : Bool :=
  store.path.isPrefixOf p

end VenvStore

/-- Modelled from the spec: `contains(path)` → true iff `path` is a
descendant of the primary path or any shadow path (i.e. of some
candidate in `all_paths`); refinement comparison target for
`VenvStore.contains`. -/
def containsSpec (store : VenvStore) (env : Env) (fs : FS) (p : FsPath) : Bool :=
  (store.all_paths env fs).any (fun c => c.isPrefixOf p)

/-- Modelled from the spec: `exists(name)` → true iff `name` is an
existing subdirectory (a directory, not merely any entry) of some
candidate path; refinement comparison target for `VenvStore.exists`. -/
def existsSpec (store : VenvStore) (env : Env) (fs : FS) (name : String) : Bool :=
  (store.all_paths env fs).any (fun c => fs.isDir (c ++ [name]))

/-- `VenvBackend::detect_current_venv`: `VIRTUAL_ENV`, absolutized;
`std::path::absolute` fails on the empty string, so an empty value also
yields `none`. -/
def detect_current_venv (env : Env) : Option FsPath :=
  envVarPath env.virtualEnv

/-- `std::fs::remove_dir_all`: fails unless `p` is a directory;
otherwise removes every entry at or below `p`. -/
def FS.removeDirAll (fs : FS) (p : FsPath) : Option FS :=
  if fs.isDir p then
    some { fs with
      dirs := fs.dirs.filter (fun d => !(p.isPrefixOf d)),
      files := fs.files.filter (fun e => !(p.isPrefixOf e.1)) }
  else none

/-- One entry of `VenvBackend::list`'s result. -/
structure EnvInfo where
  name : String
  path : FsPath
  is_active : Bool
deriving DecidableEq

/-- The error outcomes of the backend operations (`anyhow::bail!` sites
and propagated IO/spawn errors). -/
inductive BackendError
  | alreadyExists
  | doesNotExist
  | ioError
  | storeMissing
  | noActiveEnv
  | notManaged
  | toolFailed
deriving DecidableEq

namespace VenvBackend

/-- `VenvBackend::remove_venv`: `remove_dir_all(store.path().join(name))`. -/
def remove_venv (store : VenvStore) (fs : FS) (name : String) : Option FS :=
  fs.removeDirAll (store.path ++ [name])

/-- `VenvBackend::create`.  `toolOk` is the external tool's exit status
(false covers both a spawn failure and a nonzero exit).  On `.ok` the
returned state is the filesystem as handed to the external tool (the
tool's own effect is opaque to the program, which only inspects the exit
code). -/
def create (store : VenvStore) (env : Env) (fs : FS) (name : String)
    (clear : Bool) (toolOk : Bool) : Except BackendError FS :=
  if store.existsName env fs name then
    if clear then
      match remove_venv store fs name with
      | some fs1 => if toolOk then Except.ok fs1 else Except.error BackendError.toolFailed
      | none => Except.error BackendError.ioError
    else Except.error BackendError.alreadyExists
  else if toolOk then Except.ok fs else Except.error BackendError.toolFailed

/-- `VenvBackend::remove`. -/
def remove (store : VenvStore) (env : Env) (fs : FS) (name : String) :
    Except BackendError FS :=
  if !(store.existsName env fs name) then Except.error BackendError.doesNotExist
  else
    match remove_venv store fs name with
    | some fs1 => Except.ok fs1
    | none => Except.error BackendError.ioError

/-- The immediate subdirectories of `p`: directory entries exactly one
component below `p` (what `read_dir` + `is_dir` filtering yields). -/
def childDirs (fs : FS) (p : FsPath) : List FsPath :=
  fs.dirs.filter (fun d => d.length = p.length + 1 && p.isPrefixOf d)

/-- `VenvBackend::list`: read the primary directory (IO error when it is
missing or unreadable), keep the subdirectories, and mark each active by
comparing `canonicalize().ok()` of its path and of `VIRTUAL_ENV`. -/
def list (store : VenvStore) (env : Env) (fs : FS) :
    Except BackendError (List EnvInfo) :=
  if !(fs.isDir store.path && fs.readable store.path) then
    Except.error BackendError.ioError
  else
    let current_venv := detect_current_venv env
    Except.ok ((childDirs fs store.path).map (fun d =>
      { name := d.getLastD ""
        path := d
        is_active :=
          match current_venv with
          | some current => fs.canonicalize d == fs.canonicalize current
          | none => false }))

/-- `VenvBackend::install`: bail when the store path is missing, when no
environment is active, or when the active path does not start with the
store's path; otherwise the external tool runs and its exit code
decides. -/
def install (store : VenvStore) (env : Env) (fs : FS) (toolOk : Bool) :
    Except BackendError Unit :=
  if !(fs.entryExists store.path) then Except.error BackendError.storeMissing
  else
    match detect_current_venv env with
    | none => Except.error BackendError.noActiveEnv
    | some current_venv =>
      if !(store.contains current_venv) then Except.error BackendError.notManaged
      else if toolOk then Except.ok () else Except.error BackendError.toolFailed

/-- `VenvBackend::uninstall`: identical control flow to `install`. -/
def uninstall (store : VenvStore) (env : Env) (fs : FS) (toolOk : Bool) :
    Except BackendError Unit :=
  if !(fs.entryExists store.path) then Except.error BackendError.storeMissing
  else
    match detect_current_venv env with
    | none => Except.error BackendError.noActiveEnv
    | some current_venv =>
      if !(store.contains current_venv) then Except.error BackendError.notManaged
      else if toolOk then Except.ok () else Except.error BackendError.toolFailed

end VenvBackend

/-! Concrete states used for counterexamples and witnesses. -/

/-- A local hierarchy: working directory `/a/b/c`; marker directories
`.meowda/venvs` under `/a`, `/a/b` and `/a/b/c`, the one under `/a/b/c`
unreadable; environment `alpha` only under `/a`'s marker, environment
`beta` under both `/a`'s and `/a/b`'s markers. -/
def exFS : FS :=
  { dirs :=
      [ [], ["a"], ["a", "b"], ["a", "b", "c"],
        ["a", ".meowda"], ["a", ".meowda", "venvs"],
        ["a", "b", ".meowda"], ["a", "b", ".meowda", "venvs"],
        ["a", "b", "c", ".meowda"], ["a", "b", "c", ".meowda", "venvs"],
        ["a", ".meowda", "venvs", "alpha"],
        ["a", "b", ".meowda", "venvs", "beta"],
        ["a", ".meowda", "venvs", "beta"] ]
    files := []
    unreadable := [ ["a", "b", "c", ".meowda", "venvs"] ] }

/-- Environment for the local hierarchy: no overrides, cwd `/a/b/c`. -/
def exEnv : Env :=
  { meowdaLocalVenvDir := none
    meowdaGlobalVenvDir := none
    virtualEnv := none
    cwd := ["a", "b", "c"]
    dataDir := none }

/-- The local store at the nearest readable marker, `/a/b/.meowda/venvs`,
as `local_path` resolves it in `exEnv`/`exFS`. -/
def exStore : VenvStore := { path := ["a", "b", ".meowda", "venvs"] }

/-- A global store layout whose entry `f` is a file, not a directory. -/
def exFS2 : FS :=
  { dirs := [ [], ["g"] ]
    files := [ (["g", "f"], "x") ]
    unreadable := [] }

/-- Environment with nothing set, cwd at the root. -/
def exEnv2 : Env :=
  { meowdaLocalVenvDir := none
    meowdaGlobalVenvDir := none
    virtualEnv := none
    cwd := []
    dataDir := none }

/-- The global store at `/g`. -/
def exStore2 : VenvStore := { path := ["g"] }

/-- Like `exEnv2` but with `VIRTUAL_ENV=/z` active. -/
def exEnvActive : Env :=
  { meowdaLocalVenvDir := none
    meowdaGlobalVenvDir := none
    virtualEnv := some ["z"]
    cwd := []
    dataDir := none }

/-- A global store layout with a real environment directory `e`
containing a subdirectory and a file. -/
def exFS3 : FS :=
  { dirs := [ [], ["g"], ["g", "e"], ["g", "e", "sub"] ]
    files := [ (["g", "e", "cfg"], "data") ]
    unreadable := [] }

/-- Environment with the local override set to `/o`, over the marker-rich
hierarchy of `exFS`. -/
def exEnvOv : Env :=
  { meowdaLocalVenvDir := some ["o"]
    meowdaGlobalVenvDir := none
    virtualEnv := none
    cwd := ["a", "b", "c"]
    dataDir := none }

/-- A fresh filesystem: only the root directory. -/
def exFS0 : FS := { dirs := [[]], files := [], unreadable := [] }

/-- Environment with nothing set, cwd `/w`, over the fresh filesystem. -/
def exEnvW : Env :=
  { meowdaLocalVenvDir := none
    meowdaGlobalVenvDir := none
    virtualEnv := none
    cwd := ["w"]
    dataDir := none }

/-- The state `init` produces from `exFS0` for the store at `/g`. -/
def exFS0Init : FS :=
  { dirs := [ [], ["g"] ]
    files := [ (["g", ".gitignore"], "*") ]
    unreadable := [] }

/-! ## Supporting lemmas -/

theorem FS.isDir_iff (fs : FS) (q : FsPath) : fs.isDir q = true ↔ q ∈ fs.dirs := by
  simp [FS.isDir]

theorem FS.isFile_iff (fs : FS) (q : FsPath) :
    fs.isFile q = true ↔ ∃ e ∈ fs.files, e.1 = q := by
  simp [FS.isFile]

theorem mem_upChainRev_length_le (l : FsPath) :
    ∀ q ∈ upChainRev l, q.length ≤ l.length := by
  induction l with
  | nil =>
    intro q hq
    simp [upChainRev] at hq
    simp [hq]
  | cons c rest ih =>
    intro q hq
    rw [upChainRev] at hq
    rcases List.mem_cons.mp hq with h | h
    · simp [h]
    · have h1 := ih q h
      simp only [List.length_cons]
      omega

theorem mem_upChain_length_le (p : FsPath) : ∀ q ∈ upChain p, q.length ≤ p.length := by
  intro q hq
  have := mem_upChainRev_length_le p.reverse q hq
  simpa using this

theorem upChainRev_pairwise (l : FsPath) :
    (upChainRev l).Pairwise (fun x y => y.length < x.length) := by
  induction l with
  | nil => simp [upChainRev]
  | cons c rest ih =>
    rw [upChainRev]
    refine List.Pairwise.cons ?_ ih
    intro q hq
    have h1 := mem_upChainRev_length_le rest q hq
    simp only [List.length_reverse, List.length_cons]
    omega

theorem upChain_pairwise (p : FsPath) :
    (upChain p).Pairwise (fun x y => y.length < x.length) :=
  upChainRev_pairwise p.reverse

theorem mem_pathPrefixes_iff (p q : FsPath) :
    q ∈ pathPrefixes p ↔ ∃ k, k ≤ p.length ∧ q = p.take k := by
  unfold pathPrefixes
  simp only [List.mem_map, List.mem_range]
  constructor
  · rintro ⟨k, hk, rfl⟩
    exact ⟨k, by omega, rfl⟩
  · rintro ⟨k, hk, rfl⟩
    exact ⟨k, by omega, rfl⟩

theorem self_mem_pathPrefixes (p : FsPath) : p ∈ pathPrefixes p :=
  (mem_pathPrefixes_iff p p).mpr ⟨p.length, le_rfl, (List.take_length p).symm⟩

theorem mem_pathPrefixes_length_le (p q : FsPath) (h : q ∈ pathPrefixes p) :
    q.length ≤ p.length := by
  obtain ⟨k, hk, rfl⟩ := (mem_pathPrefixes_iff p q).mp h
  simp [List.length_take]

theorem bool_eq_of_iff {a b : Bool} (h : a = true ↔ b = true) : a = b := by
  cases a <;> cases b <;> simp_all

theorem find?_filter_frame {α : Type} (l : List α) (pred f : α → Bool)
    (h : ∀ a, f a = true → pred a = true) :
    (l.filter pred).find? f = l.find? f := by
  induction l with
  | nil => rfl
  | cons e rest ih =>
    by_cases hf : f e = true
    · have hp := h e hf
      simp [List.filter_cons, hp, List.find?_cons, hf]
    · have hfe : f e = false := by
        cases hfe2 : f e
        · rfl
        · exact absurd hfe2 hf
      by_cases hp : pred e = true
      · simp [List.filter_cons, hp, List.find?_cons, hfe, ih]
      · have hpe : pred e = false := by
          cases hpe2 : pred e
          · rfl
          · exact absurd hpe2 hp
        simp [List.filter_cons, hpe, List.find?_cons, hfe, ih]

theorem removeDirAll_spec (fs : FS) (p : FsPath) (h : fs.isDir p = true) :
    ∃ fs1, fs.removeDirAll p = some fs1
    ∧ (∀ q : FsPath, p.isPrefixOf q = true → fs1.entryExists q = false)
    ∧ (∀ q : FsPath, p.isPrefixOf q = false →
        fs1.isDir q = fs.isDir q ∧ fs1.fileContent q = fs.fileContent q) := by
  refine ⟨{ fs with
      dirs := fs.dirs.filter (fun d => !(p.isPrefixOf d)),
      files := fs.files.filter (fun e => !(p.isPrefixOf e.1)) }, ?_, ?_, ?_⟩
  · simp [FS.removeDirAll, h]
  · intro q hq
    rw [FS.entryExists, Bool.or_eq_false_iff]
    constructor
    · rw [Bool.eq_false_iff]
      intro hc
      have hm := (FS.isDir_iff _ q).mp hc
      rw [List.mem_filter] at hm
      simp [hq] at hm
    · rw [Bool.eq_false_iff]
      intro hc
      obtain ⟨e, he, heq⟩ := (FS.isFile_iff _ q).mp hc
      rw [List.mem_filter] at he
      simp [heq, hq] at he
  · intro q hq
    have hpred : (!(p.isPrefixOf q)) = true := by simp [hq]
    constructor
    · apply bool_eq_of_iff
      rw [FS.isDir_iff, FS.isDir_iff]
      simp [List.mem_filter, hpred]
    · unfold FS.fileContent
      rw [find?_filter_frame]
      intro a ha
      have ha2 : a.1 = q := of_decide_eq_true ha
      rw [ha2, hq]
      rfl

theorem createDirAll_of_success (fs fs1 : FS) (p : FsPath)
    (h : fs.createDirAll p = some fs1) :
    fs1.files = fs.files
    ∧ fs1.unreadable = fs.unreadable
    ∧ (∀ q ∈ pathPrefixes p, fs1.isDir q = true)
    ∧ (∀ q : FsPath, fs.isDir q = true → fs1.isDir q = true)
    ∧ (pathPrefixes p).any (fun q => fs.isFile q) = false := by
  unfold FS.createDirAll at h
  split at h
  · exact absurd h (by simp)
  · next hany =>
    rw [Option.some.injEq] at h
    subst h
    refine ⟨rfl, rfl, ?_, ?_, Bool.eq_false_iff.mpr hany⟩
    · intro q hq
      rw [FS.isDir_iff]
      by_cases hd : fs.isDir q = true
      · exact List.mem_append_left _ ((FS.isDir_iff fs q).mp hd)
      · refine List.mem_append_right _ ?_
        rw [List.mem_filter]
        exact ⟨hq, by simp [Bool.eq_false_iff.mpr hd]⟩
    · intro q hd
      rw [FS.isDir_iff]
      exact List.mem_append_left _ ((FS.isDir_iff fs q).mp hd)

theorem createDirAll_idem (fs1 : FS) (p : FsPath)
    (hfiles : ∀ q ∈ pathPrefixes p, fs1.isFile q = false)
    (hdirs : ∀ q ∈ pathPrefixes p, fs1.isDir q = true) :
    fs1.createDirAll p = some fs1 := by
  unfold FS.createDirAll
  have h1 : (pathPrefixes p).any (fun q => fs1.isFile q) = false := by
    rw [Bool.eq_false_iff]
    intro hc
    obtain ⟨q, hq, hf⟩ := List.any_eq_true.mp hc
    rw [hfiles q hq] at hf
    exact Bool.false_ne_true hf
  have h2 : (pathPrefixes p).filter (fun q => !(fs1.isDir q)) = [] := by
    rw [List.filter_eq_nil_iff]
    intro q hq
    simp [hdirs q hq]
  simp [h1, h2]

/-! ## Claim theorems -/

/-- C10: when no scope is specified at store construction, `detect_path`
resolves to the `Global` scope path; the result never depends on the
filesystem (so the `Local` walk is never consulted). -/
theorem detect_path_default_global (env : Env) (fs fs2 : FS) :
    VenvStore.detect_path none env fs = VenvStore.global_path env
    ∧ VenvStore.detect_path none env fs
        = VenvStore.detect_path (some VenvScope.Global) env fs2 :=
  ⟨rfl, rfl⟩

/-- C7: with the local override variable set and non-empty, `Local`
scope resolution returns exactly the single override path, for every
filesystem state (no walk, no shadowing): `local_path` ignores the
filesystem, and `all_paths` of the resulting store is the one-element
list. -/
theorem local_override_exact (env : Env) (fs : FS) (p : FsPath)
    (h : envVarPath env.meowdaLocalVenvDir = some p) :
    VenvStore.local_path env fs = p
    ∧ (∀ fs2 : FS, VenvStore.local_path env fs2 = p)
    ∧ VenvStore.all_paths ⟨p⟩ env fs = [p]
    ∧ VenvStore.detect_path (some VenvScope.Local) env fs = some p := by
  have key : ∀ fs2 : FS, VenvStore.local_path env fs2 = p := by
    intro fs2
    unfold VenvStore.local_path
    rw [h]
  have hall : VenvStore.all_paths ⟨p⟩ env fs = [p] := by
    unfold VenvStore.all_paths
    rw [h]
    rfl
  refine ⟨key fs, key, hall, ?_⟩
  unfold VenvStore.detect_path
  rw [key fs]

/-- Witness for C7: with override `/o` set, resolution gives `/o` even
over the marker-rich hierarchy `exFS`. -/
theorem local_override_exact_witness :
    envVarPath exEnvOv.meowdaLocalVenvDir = some ["o"]
    ∧ VenvStore.local_path exEnvOv exFS = ["o"] :=
  ⟨by decide, (local_override_exact exEnvOv exFS ["o"] (by decide)).1⟩

/-- C2 (amended): `exists(name)` is true iff at least one candidate path
(of `all_paths`: the store path alone under the override or for a global
store, the walk's results for a local store) holds a filesystem entry
named `name` of any kind — not necessarily a directory. -/
theorem exists_iff_candidate_entry (store : VenvStore) (env : Env) (fs : FS)
    (n : String) :
    store.existsName env fs n
      = (store.all_paths env fs).any (fun d => fs.entryExists (d ++ [n])) := by
  unfold VenvStore.existsName VenvStore.all_paths
  split
  · simp
  · split
    · rfl
    · simp

/-- C2 fails as stated: in `exFS2` the entry `f` under the store path is
a file, yet `exists "f"` is true while no candidate has a subdirectory
`f`. -/
theorem exists_counterexample :
    VenvStore.existsName exStore2 exEnv2 exFS2 "f" = true
    ∧ existsSpec exStore2 exEnv2 exFS2 "f" = false := by
  decide

/-- C3: `find_env_path(name)` returns the path under the lowest-index
candidate of `all_paths` containing `name` (`List.find?` order), is
`none` exactly when `name` is absent from every candidate, and on a
two-candidate list `[A, B]` with `A` containing `name` it returns `A`'s
path. -/
theorem find_env_path_nearest (store : VenvStore) (env : Env) (fs : FS)
    (n : String) :
    store.find_env_path env fs n
      = ((store.all_paths env fs).find? (fun d => fs.entryExists (d ++ [n]))).map
          (fun d => d ++ [n])
    ∧ (store.find_env_path env fs n = none ↔
        ∀ d ∈ store.all_paths env fs, fs.entryExists (d ++ [n]) = false)
    ∧ (∀ A B, store.all_paths env fs = [A, B] →
        fs.entryExists (A ++ [n]) = true →
        store.find_env_path env fs n = some (A ++ [n])) := by
  have h1 : store.find_env_path env fs n
      = ((store.all_paths env fs).find? (fun d => fs.entryExists (d ++ [n]))).map
          (fun d => d ++ [n]) := by
    unfold VenvStore.find_env_path VenvStore.all_paths
    split
    · cases h : fs.entryExists (store.path ++ [n]) <;>
        simp [List.find?_cons, h]
    · split
      · rfl
      · cases h : fs.entryExists (store.path ++ [n]) <;>
          simp [List.find?_cons, h]
  refine ⟨h1, ?_, ?_⟩
  · rw [h1]
    rw [Option.map_eq_none']
    rw [List.find?_eq_none]
    constructor
    · intro h d hd
      have := h d hd
      simpa using this
    · intro h d hd
      simp [h d hd]
  · intro A B hAB hA
    rw [h1, hAB]
    simp [List.find?_cons, hA]

/-- Witness for C3: `beta` lives under both `/a/b/.meowda/venvs` and
`/a/.meowda/venvs`; the nearest one wins. -/
theorem find_env_path_nearest_witness :
    VenvStore.find_env_path exStore exEnv exFS "beta"
      = some (["a", "b", ".meowda", "venvs"] ++ ["beta"]) :=
  (find_env_path_nearest exStore exEnv exFS "beta").2.2
    ["a", "b", ".meowda", "venvs"] ["a", ".meowda", "venvs"] (by decide) (by decide)

/-- C1 fails as stated: `/a/.meowda/venvs` is a shadow candidate of the
store at `/a/b/.meowda/venvs` (it appears in `all_paths`), and the path
`/a/.meowda/venvs/alpha` is its descendant, yet `contains` returns
false. -/
theorem contains_counterexample :
    (["a", ".meowda", "venvs"] : FsPath) ∈ VenvStore.all_paths exStore exEnv exFS
    ∧ containsSpec exStore exEnv exFS ["a", ".meowda", "venvs", "alpha"] = true
    ∧ VenvStore.contains exStore ["a", ".meowda", "venvs", "alpha"] = false := by
  decide

/-- C1 (amended): `contains(p)` is true iff `p` starts with the primary
path (shadow candidates are not consulted); given the store path exists,
`install`/`uninstall` fail when no active environment is detected, fail
when the active environment's path does not start with the primary path
(even when it lies under a shadow candidate), and reach the external
tool — whose exit status alone then decides the outcome — exactly when
both checks pass. -/
theorem install_uninstall_primary_only (store : VenvStore) (env : Env) (fs : FS)
    (toolOk : Bool) (hstore : fs.entryExists store.path = true) :
    (detect_current_venv env = none →
      VenvBackend.install store env fs toolOk = Except.error BackendError.noActiveEnv
      ∧ VenvBackend.uninstall store env fs toolOk
          = Except.error BackendError.noActiveEnv)
    ∧ (∀ cur, detect_current_venv env = some cur →
        store.contains cur = store.path.isPrefixOf cur
        ∧ (store.contains cur = false →
            VenvBackend.install store env fs toolOk
              = Except.error BackendError.notManaged
            ∧ VenvBackend.uninstall store env fs toolOk
              = Except.error BackendError.notManaged)
        ∧ (store.contains cur = true →
            VenvBackend.install store env fs toolOk
              = (if toolOk then Except.ok () else Except.error BackendError.toolFailed)
            ∧ VenvBackend.uninstall store env fs toolOk
              = (if toolOk then Except.ok () else Except.error BackendError.toolFailed))) := by
  unfold VenvBackend.install VenvBackend.uninstall
  refine ⟨?_, ?_⟩
  · intro h
    rw [h]
    simp [hstore]
  · intro cur h
    refine ⟨rfl, ?_, ?_⟩
    · intro hc
      rw [h]
      simp [hstore, hc]
    · intro hc
      rw [h]
      simp [hstore, hc]

/-- Witness for C1 (amended): active environment `/z` is outside the
store at `/g`, so both operations fail with the membership error. -/
theorem install_uninstall_primary_only_witness :
    exFS2.entryExists exStore2.path = true
    ∧ VenvBackend.install exStore2 exEnvActive exFS2 true
        = Except.error BackendError.notManaged
    ∧ VenvBackend.uninstall exStore2 exEnvActive exFS2 true
        = Except.error BackendError.notManaged := by
  have h :=
    (install_uninstall_primary_only exStore2 exEnvActive exFS2 true (by decide)).2
      ["z"] (by decide)
  exact ⟨by decide, (h.2.1 (by decide)).1, (h.2.1 (by decide)).2⟩

/-- C8: without the override, the `Local` candidate list consists of
exactly the existing, readable marker subdirectories found along the
upward walk (unreadable ones are silently skipped), ordered nearest
first (strictly decreasing path length); when the walk finds nothing the
resolved path is the fallback `<cwd>/.meowda/venvs`, and otherwise the
nearest hit; concretely, walking from `/a/b/c` over `exFS` (markers at
`/a` and `/a/b`, plus an unreadable one at `/a/b/c`) yields
`[/a/b/.meowda/venvs, /a/.meowda/venvs]`. -/
theorem local_walk_candidates (env : Env) (fs : FS)
    (hov : envVarPath env.meowdaLocalVenvDir = none) :
    (∀ d : FsPath, d ∈ find_local_venv_dirs fs env.cwd ↔
        ((∃ a ∈ upChain env.cwd, a ++ markerSubdir = d)
          ∧ fs.entryExists d = true ∧ fs.isDir d = true ∧ fs.readable d = true))
    ∧ (find_local_venv_dirs fs env.cwd).Pairwise (fun x y => y.length < x.length)
    ∧ (find_local_venv_dirs fs env.cwd = [] →
        VenvStore.local_path env fs = env.cwd ++ markerSubdir)
    ∧ (∀ first tail, find_local_venv_dirs fs env.cwd = first :: tail →
        VenvStore.local_path env fs = first)
    ∧ find_local_venv_dirs exFS ["a", "b", "c"]
        = [["a", "b", ".meowda", "venvs"], ["a", ".meowda", "venvs"]] := by
  refine ⟨?_, ?_, ?_, ?_, by decide⟩
  · intro d
    unfold find_local_venv_dirs
    simp only [List.mem_filter, List.mem_map, Bool.and_eq_true]
    constructor
    · rintro ⟨⟨a, ha, rfl⟩, ⟨h1, h2⟩, h3⟩
      exact ⟨⟨a, ha, rfl⟩, h1, h2, h3⟩
    · rintro ⟨⟨a, ha, rfl⟩, h1, h2, h3⟩
      exact ⟨⟨a, ha, rfl⟩, ⟨h1, h2⟩, h3⟩
  · have h1 : ((upChain env.cwd).map (fun d => d ++ markerSubdir)).Pairwise
        (fun x y : FsPath => y.length < x.length) := by
      rw [List.pairwise_map]
      refine (upChain_pairwise env.cwd).imp ?_
      intro a b hab
      simpa [List.length_append] using
        Nat.add_lt_add_right hab markerSubdir.length
    exact List.Pairwise.sublist (List.filter_sublist _) h1
  · intro h
    simp [VenvStore.local_path, hov, h]
  · intro first tail h
    simp [VenvStore.local_path, hov, h]

/-- Witness for C8: over the fresh filesystem the walk from `/w` finds
nothing and resolution falls back to `/w/.meowda/venvs`. -/
theorem local_walk_candidates_witness :
    VenvStore.local_path exEnvW exFS0 = ["w"] ++ markerSubdir :=
  (local_walk_candidates exEnvW exFS0 (by decide)).2.2.1 (by decide)

/-- C9: when the primary directory is readable, `list` succeeds and
enumerates exactly its immediate subdirectories — every listed path lies
one component below the primary path, so shadow candidates are never
included — and an entry is marked active iff the canonical form of its
path equals the canonical form of the externally supplied active path
(all entries are inactive when none is supplied). -/
theorem list_primary_only (store : VenvStore) (env : Env) (fs : FS)
    (h1 : fs.isDir store.path = true) (h2 : fs.readable store.path = true) :
    ∃ l, VenvBackend.list store env fs = Except.ok l
    ∧ l.map EnvInfo.path = VenvBackend.childDirs fs store.path
    ∧ (∀ e ∈ l, store.path.isPrefixOf e.path = true
        ∧ e.path.length = store.path.length + 1 ∧ fs.isDir e.path = true)
    ∧ (∀ e ∈ l, ∀ cur, detect_current_venv env = some cur →
        (e.is_active = true ↔ fs.canonicalize e.path = fs.canonicalize cur))
    ∧ (detect_current_venv env = none → ∀ e ∈ l, e.is_active = false) := by
  refine ⟨(VenvBackend.childDirs fs store.path).map (fun d =>
      { name := d.getLastD ""
        path := d
        is_active :=
          match detect_current_venv env with
          | some current => fs.canonicalize d == fs.canonicalize current
          | none => false }), ?_, ?_, ?_, ?_, ?_⟩
  · simp [VenvBackend.list, h1, h2]
  · simp only [List.map_map]
    exact List.map_id _
  · intro e he
    obtain ⟨d, hd, rfl⟩ := List.mem_map.mp he
    unfold VenvBackend.childDirs at hd
    rw [List.mem_filter] at hd
    obtain ⟨hmem, hcond⟩ := hd
    rw [Bool.and_eq_true] at hcond
    obtain ⟨hlen, hpre⟩ := hcond
    refine ⟨hpre, ?_, (FS.isDir_iff fs d).mpr hmem⟩
    exact of_decide_eq_true hlen
  · intro e he cur hcur
    obtain ⟨d, hd, rfl⟩ := List.mem_map.mp he
    simp only [hcur]
    exact beq_iff_eq
  · intro hnone e he
    obtain ⟨d, hd, rfl⟩ := List.mem_map.mp he
    simp only [hnone]

/-- Witness for C9: over `exFS`, the store at `/a/b/.meowda/venvs` lists
exactly its own child `beta`; the shadow candidate's `alpha` does not
appear. -/
theorem list_primary_only_witness :
    ∃ l, VenvBackend.list exStore exEnv exFS = Except.ok l
      ∧ l.map EnvInfo.path = VenvBackend.childDirs exFS exStore.path := by
  obtain ⟨l, hok, hmap, -, -, -⟩ :=
    list_primary_only exStore exEnv exFS (by decide) (by decide)
  exact ⟨l, hok, hmap⟩

/-- C5: `remove(name)` fails with the "does not exist" precondition
error iff the name does not exist in the store; when it exists and its
directory is under the primary path, the whole directory tree below it
is deleted and nothing else changes; when the deletion fails (no
directory under the primary path, e.g. the name exists only in a shadow
candidate) the operation fails with an IO error. -/
theorem remove_spec (store : VenvStore) (env : Env) (fs : FS) (n : String) :
    (VenvBackend.remove store env fs n = Except.error BackendError.doesNotExist
      ↔ store.existsName env fs n = false)
    ∧ (store.existsName env fs n = true → fs.isDir (store.path ++ [n]) = true →
        ∃ fs1, VenvBackend.remove store env fs n = Except.ok fs1
          ∧ (∀ q : FsPath, (store.path ++ [n]).isPrefixOf q = true →
              fs1.entryExists q = false)
          ∧ (∀ q : FsPath, (store.path ++ [n]).isPrefixOf q = false →
              fs1.isDir q = fs.isDir q ∧ fs1.fileContent q = fs.fileContent q))
    ∧ (store.existsName env fs n = true → fs.isDir (store.path ++ [n]) = false →
        VenvBackend.remove store env fs n = Except.error BackendError.ioError) := by
  refine ⟨⟨?_, ?_⟩, ?_, ?_⟩
  · intro h
    cases hex : store.existsName env fs n with
    | false => rfl
    | true =>
      exfalso
      unfold VenvBackend.remove VenvBackend.remove_venv FS.removeDirAll at h
      rw [hex] at h
      cases hd : fs.isDir (store.path ++ [n]) <;> simp [hd] at h
  · intro hex
    simp [VenvBackend.remove, hex]
  · intro hex hd
    obtain ⟨fs1, hsome, hgone, hframe⟩ := removeDirAll_spec fs (store.path ++ [n]) hd
    refine ⟨fs1, ?_, hgone, hframe⟩
    simp [VenvBackend.remove, VenvBackend.remove_venv, hex, hsome]
  · intro hex hd
    simp [VenvBackend.remove, VenvBackend.remove_venv, FS.removeDirAll, hex, hd]

/-- Witness for C5: removing the existing environment `e` of the store
at `/g` succeeds and its whole directory tree is gone. -/
theorem remove_spec_witness :
    ∃ fs1, VenvBackend.remove exStore2 exEnv2 exFS3 "e" = Except.ok fs1
      ∧ fs1.entryExists ["g", "e"] = false
      ∧ fs1.entryExists ["g", "e", "sub"] = false := by
  obtain ⟨fs1, hok, hgone, -⟩ :=
    (remove_spec exStore2 exEnv2 exFS3 "e").2.1 (by decide) (by decide)
  exact ⟨fs1, hok, hgone ["g", "e"] (by decide), hgone ["g", "e", "sub"] (by decide)⟩

/-- C4 fails as stated: `alpha` exists in the store's candidate set
(under the shadow `/a/.meowda/venvs` only), so `create("alpha", clear =
true)` should clear it and succeed, but the removal targets the primary
path and fails, so the operation errors and the tool never runs. -/
theorem create_clear_counterexample :
    VenvStore.existsName exStore exEnv exFS "alpha" = true
    ∧ VenvBackend.create exStore exEnv exFS "alpha" true true
        = Except.error BackendError.ioError :=
  ⟨by decide, rfl⟩

/-- C4 (amended): `create(name, clear = false)` on an existing name
fails with the "already exists" precondition error; with `clear = true`,
when the name's directory exists under the primary path, it is removed
(the tree below it gone, everything else untouched) in the state handed
to the external tool and the operation succeeds when the tool does;
when the name exists but not as a primary-path directory (e.g. only in
a shadow candidate), the removal fails with an IO error before the tool
runs; on a fresh name the tool's exit status alone decides; and a tool
failure always fails the operation. -/
theorem create_spec (store : VenvStore) (env : Env) (fs : FS) (n : String)
    (toolOk : Bool) :
    (store.existsName env fs n = true →
      VenvBackend.create store env fs n false toolOk
        = Except.error BackendError.alreadyExists)
    ∧ (store.existsName env fs n = true → fs.isDir (store.path ++ [n]) = true →
        ∃ fs1, VenvBackend.create store env fs n true true = Except.ok fs1
          ∧ (∀ q : FsPath, (store.path ++ [n]).isPrefixOf q = true →
              fs1.entryExists q = false)
          ∧ (∀ q : FsPath, (store.path ++ [n]).isPrefixOf q = false →
              fs1.isDir q = fs.isDir q ∧ fs1.fileContent q = fs.fileContent q))
    ∧ (store.existsName env fs n = true → fs.isDir (store.path ++ [n]) = false →
        VenvBackend.create store env fs n true toolOk
          = Except.error BackendError.ioError)
    ∧ (store.existsName env fs n = false → ∀ clear,
        VenvBackend.create store env fs n clear toolOk
          = (if toolOk then Except.ok fs else Except.error BackendError.toolFailed))
    ∧ (toolOk = false → ∀ clear fs1,
        VenvBackend.create store env fs n clear toolOk ≠ Except.ok fs1) := by
  refine ⟨?_, ?_, ?_, ?_, ?_⟩
  · intro hex
    simp [VenvBackend.create, hex]
  · intro hex hd
    obtain ⟨fs1, hsome, hgone, hframe⟩ := removeDirAll_spec fs (store.path ++ [n]) hd
    refine ⟨fs1, ?_, hgone, hframe⟩
    simp [VenvBackend.create, VenvBackend.remove_venv, hex, hsome]
  · intro hex hd
    simp [VenvBackend.create, VenvBackend.remove_venv, FS.removeDirAll, hex, hd]
  · intro hex clear
    cases clear <;> simp [VenvBackend.create, hex]
  · intro htool clear fs1 hc
    rw [htool] at hc
    cases hex : store.existsName env fs n <;> cases clear <;>
      unfold VenvBackend.create at hc <;> rw [hex] at hc <;> simp at hc
    rcases hr : VenvBackend.remove_venv store fs n with - | fs2 <;>
      rw [hr] at hc <;> simp at hc

/-- Witness for C4 (amended): over `exFS3` the name `e` is a directory
under the primary path, so `clear = false` hits the precondition error
while `clear = true` removes the tree and succeeds. -/
theorem create_spec_witness :
    VenvBackend.create exStore2 exEnv2 exFS3 "e" false true
        = Except.error BackendError.alreadyExists
    ∧ ∃ fs1, VenvBackend.create exStore2 exEnv2 exFS3 "e" true true = Except.ok fs1
        ∧ fs1.entryExists ["g", "e"] = false := by
  have h := create_spec exStore2 exEnv2 exFS3 "e" true
  refine ⟨h.1 (by decide), ?_⟩
  obtain ⟨fs1, hok, hgone, -⟩ := h.2.1 (by decide) (by decide)
  exact ⟨fs1, hok, hgone ["g", "e"] (by decide)⟩

/-- C6: `init()` is idempotent — after a successful `init` a second call
succeeds and changes nothing — it never truncates or overwrites an
existing marker file's contents, a successful `init` leaves the store
ready, and on a fresh store (primary path absent) `is_ready` is false
before `init`. -/
theorem init_idempotent_ready (store : VenvStore) (fs : FS) :
    (∀ fs1, store.init fs = some fs1 →
        store.init fs1 = some fs1
        ∧ store.is_ready fs1 = true
        ∧ (∀ c, fs.fileContent (store.path ++ [".gitignore"]) = some c →
            fs1.fileContent (store.path ++ [".gitignore"]) = some c))
    ∧ (fs.entryExists store.path = false → store.is_ready fs = false) := by
  constructor
  · intro fs1 h
    unfold VenvStore.init at h
    rcases ha : fs.createDirAll store.path with - | fsA
    · rw [ha] at h
      simp at h
    · rw [ha] at h
      rw [Option.map_some'] at h
      rw [Option.some.injEq] at h
      obtain ⟨hfilesA, hunreadA, hdirsA, hmonoA, hanyA⟩ :=
        createDirAll_of_success fs fsA store.path ha
      have hq_file : ∀ q ∈ pathPrefixes store.path, fs.isFile q = false := by
        intro q hq
        rw [Bool.eq_false_iff]
        intro hf
        have hc : (pathPrefixes store.path).any (fun q => fs.isFile q) = true :=
          List.any_eq_true.mpr ⟨q, hq, hf⟩
        rw [hanyA] at hc
        exact Bool.false_ne_true hc
      have hgi_len : (store.path ++ [".gitignore"]).length = store.path.length + 1 := by
        simp
      have hq_ne_gi : ∀ q ∈ pathPrefixes store.path,
          q ≠ store.path ++ [".gitignore"] := by
        intro q hq heq
        have h1 := mem_pathPrefixes_length_le store.path q hq
        rw [heq, hgi_len] at h1
        omega
      -- facts about fs1, by cases on whether the marker already existed
      have hfs1 : (∀ q ∈ pathPrefixes store.path, fs1.isDir q = true)
          ∧ (∀ q ∈ pathPrefixes store.path, fs1.isFile q = false)
          ∧ fs1.entryExists (store.path ++ [".gitignore"]) = true := by
        by_cases he : fsA.entryExists (store.path ++ [".gitignore"]) = true
        · rw [if_pos he] at h
          subst h
          refine ⟨hdirsA, ?_, he⟩
          intro q hq
          show fsA.isFile q = false
          unfold FS.isFile
          rw [hfilesA]
          exact hq_file q hq
        · rw [if_neg he] at h
          subst h
          refine ⟨hdirsA, ?_, ?_⟩
          · intro q hq
            show (fsA.files ++ [(store.path ++ [".gitignore"], "*")]).any
                (fun e => e.1 = q) = false
            rw [List.any_append]
            rw [Bool.or_eq_false_iff]
            constructor
            · have : fsA.isFile q = false := by
                unfold FS.isFile
                rw [hfilesA]
                exact hq_file q hq
              exact this
            · simp only [List.any_cons, List.any_nil, Bool.or_false]
              rw [decide_eq_false_iff_not]
              intro heq
              exact hq_ne_gi q hq heq.symm
          · show (fsA.isDir _ || (fsA.files ++ [(store.path ++ [".gitignore"], "*")]).any
                (fun e => e.1 = store.path ++ [".gitignore"])) = true
            rw [List.any_append]
            simp
      obtain ⟨hfs1dirs, hfs1files, hfs1gi⟩ := hfs1
      refine ⟨?_, ?_, ?_⟩
      · unfold VenvStore.init
        rw [createDirAll_idem fs1 store.path hfs1files hfs1dirs]
        rw [Option.map_some']
        rw [if_pos hfs1gi]
      · unfold VenvStore.is_ready
        have hd : fs1.isDir store.path = true :=
          hfs1dirs store.path (self_mem_pathPrefixes store.path)
        rw [hd, hfs1gi]
        unfold FS.entryExists
        rw [hd]
        rfl
      · intro c hc
        have hfile_gi : fs.isFile (store.path ++ [".gitignore"]) = true := by
          unfold FS.fileContent at hc
          rcases hf : fs.files.find?
              (fun e => e.1 = store.path ++ [".gitignore"]) with - | e
          · rw [hf] at hc
            simp at hc
          · have hmem := List.mem_of_find?_eq_some hf
            have hpe := List.find?_some hf
            rw [FS.isFile_iff]
            exact ⟨e, hmem, of_decide_eq_true hpe⟩
        have he : fsA.entryExists (store.path ++ [".gitignore"]) = true := by
          unfold FS.entryExists FS.isFile
          rw [hfilesA]
          unfold FS.isFile at hfile_gi
          rw [hfile_gi]
          simp
        rw [if_pos he] at h
        subst h
        unfold FS.fileContent
        rw [hfilesA]
        exact hc
  · intro h
    unfold VenvStore.is_ready
    rw [h]
    rfl

/-- Witness for C6: initialising the fresh filesystem for the store at
`/g` yields `exFS0Init`; a second `init` is a no-op, the store is then
ready, and it was not ready before. -/
theorem init_idempotent_ready_witness :
    VenvStore.init exStore2 exFS0 = some exFS0Init
    ∧ VenvStore.init exStore2 exFS0Init = some exFS0Init
    ∧ VenvStore.is_ready exStore2 exFS0Init = true
    ∧ VenvStore.is_ready exStore2 exFS0 = false := by
  have h := (init_idempotent_ready exStore2 exFS0).1 exFS0Init (by rfl)
  exact ⟨by rfl, h.1, h.2.1, (init_idempotent_ready exStore2 exFS0).2 (by decide)⟩

end Meowda
